import Mathlib

/-!
Verification development for the CLMS downloader
(PythonAPI/CLMS_downloader.py): a shallow embedding of the query builder,
the paginated search executor, the feature extractor, the result-list file
format and the authenticated download loop, together with theorems about
the claims of the specification.

Conventions of the embedding:
* Python strings handled character by character (result-list file contents,
  URLs, titles) are modelled as List Char; strings only compared or
  concatenated are modelled as String.
* Python exceptions and sys.exit are modelled by Except RunError.
* Network responses (search pages, token endpoint) are inputs of the
  modelled functions: a page body is a value of type PageBody, the token
  endpoint response a value of type TokenResponse.
* The unbounded while loop of execute_request is modelled with explicit
  fuel; every theorem assumes enough fuel for the run it describes.
-/

/-- Decidable equality of Except results, used to evaluate the modelled
functions on concrete inputs. -/
instance {ε : Type u} {α : Type v} [DecidableEq ε] [DecidableEq α] :
    DecidableEq (Except ε α) := fun a b =>
  match a, b with
  | Except.ok x, Except.ok y =>
    match decEq x y with
    | isTrue h => isTrue (by rw [h])
    | isFalse h => isFalse (fun hh => h (Except.ok.inj hh))
  | Except.ok _, Except.error _ => isFalse (fun hh => Except.noConfusion hh)
  | Except.error _, Except.ok _ => isFalse (fun hh => Except.noConfusion hh)
  | Except.error e1, Except.error e2 =>
    match decEq e1 e2 with
    | isTrue h => isTrue (by rw [h])
    | isFalse h => isFalse (fun hh => h (Except.error.inj hh))

namespace CLMS

/-- A product reference extracted from one catalogue feature:
the pair (download url, title), as produced by read_hrsi_feature. -/
abbrev ProductReference := List Char × List Char

/-- Error outcomes of a run: each constructor corresponds to one way the
script raises or exits.

* nameErrorUrlParamsPage: in request_page, the except KeyError branch calls
  logging.error with json.dumps(url_params_page); the name url_params_page
  is not defined anywhere in the script, so evaluating the argument raises
  NameError before any message is logged, and the NameError propagates.
* missingProperty: the Exception raised by read_json_param when
  feature[properties][param] is missing, naming the feature index
  and the parameter.
* rawKeyError: an uncaught KeyError from a plain dictionary access
  (services[download][url] in read_hrsi_feature, out[access_token] in
  get_token).
* usageExit: sys.exit with the given status.
* valueError: the ValueError raised by validate_Rfc3339. -/
inductive RunError where
  | nameErrorUrlParamsPage
  | missingProperty (featureIndex : Nat) (param : String)
  | rawKeyError (key : String)
  | usageExit (status : Int)
  | valueError (msg : String)
deriving DecidableEq

/-! ## Feature extraction (read_hrsi_feature / read_json_param) -/

/-- The nested services.download object of a catalogue feature. -/
structure DownloadService where
  url : List Char
  size : Nat
deriving DecidableEq

/-- The services object of a catalogue feature; the download entry may be
absent (its absence raises a raw KeyError in the source). -/
structure ServicesObject where
  download : Option DownloadService
deriving DecidableEq

/-- The properties object of a catalogue feature: each field read by
read_hrsi_feature, absent fields modelled as none. -/
structure FeatureProperties where
  productIdentifier : Option (List Char)
  title : Option (List Char)
  startDate : Option (List Char)
  productType : Option (List Char)
  mission : Option (List Char)
  services : Option ServicesObject
  published : Option (List Char)
deriving DecidableEq

/-- One catalogue feature; a missing properties object raises the same
wrapped KeyError as a missing parameter, so it is an Option. -/
structure Feature where
  properties : Option FeatureProperties
deriving DecidableEq

/-- read_json_param: return feature[properties][json_param], raising the
wrapped Exception (naming the feature index and the parameter) when the
access fails. -/
def read_json_param (feature : Feature) (feature_index : Nat) (json_param : String)
    (sel : FeatureProperties → Option α) : Except RunError α :=
  match feature.properties with
  | none => Except.error (RunError.missingProperty feature_index json_param)
  | some props =>
    match sel props with
    | none => Except.error (RunError.missingProperty feature_index json_param)
    | some v => Except.ok v

/-- read_hrsi_feature: read the fixed set of parameters of one feature, in
source order, and return the pair (download url, title). -/
def read_hrsi_feature (feature : Feature) (feature_index : Nat) :
    Except RunError ProductReference := do
  let _hrsi_path ← read_json_param feature feature_index "productIdentifier"
    (fun p => p.productIdentifier)
  let hrsi_title ← read_json_param feature feature_index "title" (fun p => p.title)
  let _hrsi_obs_date ← read_json_param feature feature_index "startDate"
    (fun p => p.startDate)
  let _hrsi_product_type ← read_json_param feature feature_index "productType"
    (fun p => p.productType)
  let _hrsi_mission ← read_json_param feature feature_index "mission" (fun p => p.mission)
  let services1 ← read_json_param feature feature_index "services" (fun p => p.services)
  let hrsi_url ←
    match services1.download with
    | none => Except.error (RunError.rawKeyError "download")
    | some d => Except.ok d.url
  let services2 ← read_json_param feature feature_index "services" (fun p => p.services)
  let _hrsi_size ←
    match services2.download with
    | none => Except.error (RunError.rawKeyError "download")
    | some d => Except.ok d.size
  let _hrsi_publication_date ← read_json_param feature feature_index "published"
    (fun p => p.published)
  return (hrsi_url, hrsi_title)

/-! ## One page request (request_page) -/

/-- The parsed JSON body of one search-page response; the features array
may be absent. -/
structure PageBody where
  features : Option (List Feature)
deriving DecidableEq

/-- Read each feature of a page in order, with its enumeration index; the
first failing feature aborts the whole page. -/
def read_features : List Feature → Nat → Except RunError (List ProductReference)
  | [], _ => Except.ok []
  | f :: fs, i => do
    let p ← read_hrsi_feature f i
    let ps ← read_features fs (i + 1)
    return (p :: ps)

/-- request_page: read one page body. The first component is the list of
messages logged by the function. When the features entry is missing, the
source enters the except KeyError branch and builds the diagnostic message
with json.dumps(url_params_page); url_params_page is an undefined name, so
a NameError is raised while evaluating the arguments of logging.error:
nothing is logged and the NameError propagates out of the function. -/
def request_page (body : PageBody) : List String × Except RunError (List ProductReference) :=
  match body.features with
  | none => ([], Except.error RunError.nameErrorUrlParamsPage)
  | some features => ([], read_features features 0)

/-- The page fetcher induced by a sequence of page bodies: what
self.request_page returns on each page index. -/
def page_fetcher (bodies : Nat → PageBody) : Nat → Except RunError (List ProductReference) :=
  fun i => (request_page (bodies i)).2

/-! ## The pagination loop (execute_request) -/

/-- First exit condition of the page loop: a maximum number of pages is
configured and at least that many pages have been requested. -/
def first_exit_condition (max_requested_pages : Option Nat) (requested_pages : Nat) : Bool :=
  match max_requested_pages with
  | none => false
  | some m => decide (m ≤ requested_pages)

/-- The while loop of execute_request, from the state where
requested_pages pages have already been requested: request successive
pages (index requested_pages + 1, incrementing), stop on the first page
with no features or when the first exit condition holds, propagate any
exception. Returns the products accumulated from this state on, together
with the final value of requested_pages. The fuel argument bounds the
number of iterations; all theorems supply enough fuel. -/
def execute_request_loop (fetch : Nat → Except RunError (List ProductReference))
    (max_requested_pages : Option Nat) :
    Nat → Nat → Except RunError (List ProductReference) × Nat
  | 0, requested_pages => (Except.ok [], requested_pages)
  | fuel + 1, requested_pages =>
    if first_exit_condition max_requested_pages requested_pages then
      (Except.ok [], requested_pages)
    else
      match fetch (requested_pages + 1) with
      | Except.error e => (Except.error e, requested_pages + 1)
      | Except.ok [] => (Except.ok [], requested_pages + 1)
      | Except.ok (p :: ps) =>
        let rest := execute_request_loop fetch max_requested_pages fuel (requested_pages + 1)
        (rest.1.map (fun acc => (p :: ps) ++ acc), rest.2)

/-- execute_request: run the page loop from zero requested pages, then keep
only unique products (hrsi_products = set(hrsi_products)) and record
whether a duplicate warning is emitted (the set is smaller than the
accumulated list). Returns the deduplicated result list, the warning flag,
and the number of requested pages. -/
def execute_request (fetch : Nat → Except RunError (List ProductReference))
    (max_requested_pages : Option Nat) (fuel : Nat) :
    Except RunError (List ProductReference × Bool) × Nat :=
  let r := execute_request_loop fetch max_requested_pages fuel 0
  (r.1.map (fun hrsi_products =>
      (hrsi_products.dedup,
       decide (hrsi_products.dedup.length ≠ hrsi_products.length))), r.2)

/-! ## Date validation (validate_Rfc3339) -/

/-- Numeric value of a digit character. -/
def digitVal (c : Char) : Nat := c.toNat - 48

/-- Leap year rule used by the datetime module. -/
def isLeapYear (y : Nat) : Bool := (y % 4 == 0 && y % 100 != 0) || y % 400 == 0

/-- Number of days of a month, as validated by the datetime constructor. -/
def daysInMonth (y m : Nat) : Nat :=
  if m = 2 then (if isLeapYear y then 29 else 28)
  else if m = 4 ∨ m = 6 ∨ m = 9 ∨ m = 11 then 30
  else 31

/-- Parse a strptime numeric field that matches either a two-digit
alternative (accepted when twoOk holds of its value) or a single digit
(accepted when oneOk holds). When two digits are present but the two-digit
alternatives fail, the regex backtracks to one digit and the following
literal delimiter then fails against the second digit, so the whole match
fails; this is what returning none encodes. -/
def parseField (twoOk oneOk : Nat → Bool) : List Char → Option (Nat × List Char)
  | c1 :: c2 :: rest =>
    if c1.isDigit && c2.isDigit then
      let v := 10 * digitVal c1 + digitVal c2
      if twoOk v then some (v, rest) else none
    else if c1.isDigit && oneOk (digitVal c1) then some (digitVal c1, c2 :: rest)
    else none
  | [c1] => if c1.isDigit && oneOk (digitVal c1) then some (digitVal c1, []) else none
  | [] => none

/-- Parse the four-digit year field of strptime. -/
def parseYear : List Char → Option (Nat × List Char)
  | y1 :: y2 :: y3 :: y4 :: rest =>
    if y1.isDigit && y2.isDigit && y3.isDigit && y4.isDigit then
      some (1000 * digitVal y1 + 100 * digitVal y2 + 10 * digitVal y3 + digitVal y4, rest)
    else none
  | _ => none

/-- Consume one expected literal character. -/
def expectChar (c : Char) : List Char → Option (List Char)
  | a :: rest => if a == c then some rest else none
  | [] => none

/-- Whether datetime.strptime(s, the YYYY-MM-DDTHH:MM:SSZ format) succeeds:
the strptime pattern match (four-digit year, one-or-two-digit month, day,
hour, minute, second, literal separators, nothing left over) followed by
the datetime constructor checks (year at least 1, day within the month;
seconds above 59 pass the pattern but are rejected by the constructor, so
the net bound on seconds is 59). -/
def isRfc3339 (date_text : String) : Bool :=
  (do
    let (y, r1) ← parseYear date_text.data
    let r2 ← expectChar '-' r1
    let (mo, r3) ← parseField (fun v => decide (1 ≤ v ∧ v ≤ 12)) (fun v => decide (1 ≤ v)) r2
    let r4 ← expectChar '-' r3
    let (d, r5) ← parseField (fun v => decide (1 ≤ v ∧ v ≤ 31)) (fun v => decide (1 ≤ v)) r4
    let r6 ← expectChar 'T' r5
    let (_h, r7) ← parseField (fun v => decide (v ≤ 23)) (fun _ => true) r6
    let r8 ← expectChar ':' r7
    let (_mi, r9) ← parseField (fun v => decide (v ≤ 59)) (fun _ => true) r8
    let r10 ← expectChar ':' r9
    let (_se, r11) ← parseField (fun v => decide (v ≤ 59)) (fun _ => true) r10
    let r12 ← expectChar 'Z' r11
    if r12.isEmpty && decide (1 ≤ y) && decide (d ≤ daysInMonth y mo) then some () else none
  ).isSome

/-- validate_Rfc3339: return the date text unchanged when it parses,
otherwise raise ValueError. -/
def validate_Rfc3339 (date_text : String) : Except RunError String :=
  if isRfc3339 date_text then Except.ok date_text
  else Except.error (RunError.valueError "Incorrect date format, should be YYYY-MM-DDTHH:MM:SSZ")

/-! ## Query builder (build_request) -/

/-- URL parameter names of the catalogue, as in the source. -/
def URL_PARAM_GEOMETRY : String := "geometry"

def URL_PARAM_PUBLISHED_AFTER : String := "publishedAfter"

def URL_PARAM_PUBLISHED_BEFORE : String := "publishedBefore"

def URL_PARAM_OBSERVATIONDATE_AFTER : String := "startDate"

def URL_PARAM_OBSERVATIONDATE_BEFORE : String := "completionDate"

def URL_PARAM_PRODUCT_IDENTIFIER : String := "productIdentifier"

def URL_PARAM_PRODUCT_TYPE : String := "productType"

def URL_PARAM_MISSION : String := "mission"

def URL_PARAM_CLOUD_COVER : String := "cloudCover"

def URL_PARAM_TEXTUAL_SEARCH : String := "q"

/-- Request URL root. -/
def URL_ROOT : String := "https://cryo.land.copernicus.eu/resto/api/collections/HRSI/search.json"

/-- Static URL parameters, appended to every generated query (the integer
page size is rendered as a string by the join). -/
def URL_STATIC_PARAMS : List (String × String) :=
  [("status", "all"), ("maxRecords", "1000"), ("dataset", "ESA-DATASET"),
   ("sortParam", "startDate"), ("sortOrder", "descending")]

/-- The keys of the static URL parameters. -/
def STATIC_KEYS : List String :=
  ["status", "maxRecords", "dataset", "sortParam", "sortOrder"]

/-- The optional arguments of build_request. cloudCoverageMax is an
integer (argparse type int); the others are strings. -/
structure SearchFilter where
  productIdentifier : Option String := none
  productType : Option String := none
  mission : Option String := none
  obsDateMin : Option String := none
  obsDateMax : Option String := none
  publicationDateMin : Option String := none
  publicationDateMax : Option String := none
  cloudCoverageMax : Option Int := none
  geometry : Option String := none
  textualSearch : Option String := none

/-- The ten filter arguments of build_request, in source order. -/
inductive FilterField where
  | productIdentifier
  | productType
  | mission
  | obsDateMin
  | obsDateMax
  | publicationDateMin
  | publicationDateMax
  | cloudCoverageMax
  | geometry
  | textualSearch
deriving DecidableEq

/-- All filter fields, in the order build_request tests them. -/
def FilterField.all : List FilterField :=
  [FilterField.productIdentifier, FilterField.productType, FilterField.mission,
   FilterField.obsDateMin, FilterField.obsDateMax, FilterField.publicationDateMin,
   FilterField.publicationDateMax, FilterField.cloudCoverageMax, FilterField.geometry,
   FilterField.textualSearch]

/-- Python truthiness of an optional string argument: present and
non-empty. -/
def truthyS : Option String → Bool
  | some s => !s.isEmpty
  | none => false

/-- Python truthiness of an optional integer argument: present and
non-zero. -/
def truthyI : Option Int → Bool
  | some n => decide (n ≠ 0)
  | none => false

/-- Whether a field of the filter is set in the sense of the source, i.e.
passes the if tests of build_request (Python truthiness). -/
def is_set (f : SearchFilter) : FilterField → Bool
  | FilterField.productIdentifier => truthyS f.productIdentifier
  | FilterField.productType => truthyS f.productType
  | FilterField.mission => truthyS f.mission
  | FilterField.obsDateMin => truthyS f.obsDateMin
  | FilterField.obsDateMax => truthyS f.obsDateMax
  | FilterField.publicationDateMin => truthyS f.publicationDateMin
  | FilterField.publicationDateMax => truthyS f.publicationDateMax
  | FilterField.cloudCoverageMax => truthyI f.cloudCoverageMax
  | FilterField.geometry => truthyS f.geometry
  | FilterField.textualSearch => truthyS f.textualSearch

/-- The catalogue parameter name a filter field maps to. -/
def param_key : FilterField → String
  | FilterField.productIdentifier => URL_PARAM_PRODUCT_IDENTIFIER
  | FilterField.productType => URL_PARAM_PRODUCT_TYPE
  | FilterField.mission => URL_PARAM_MISSION
  | FilterField.obsDateMin => URL_PARAM_OBSERVATIONDATE_AFTER
  | FilterField.obsDateMax => URL_PARAM_OBSERVATIONDATE_BEFORE
  | FilterField.publicationDateMin => URL_PARAM_PUBLISHED_AFTER
  | FilterField.publicationDateMax => URL_PARAM_PUBLISHED_BEFORE
  | FilterField.cloudCoverageMax => URL_PARAM_CLOUD_COVER
  | FilterField.geometry => URL_PARAM_GEOMETRY
  | FilterField.textualSearch => URL_PARAM_TEXTUAL_SEARCH

/-- Python str.upper(), character by character (the script only ever
upper-cases ASCII product types, missions and identifiers). -/
def upperString (s : String) : String := String.mk (s.data.map Char.toUpper)

/-- Python str.replace applied to single spaces: replace every space by a
plus sign. -/
def plusForSpaces (s : String) : String :=
  String.mk (s.data.map (fun c => if c == ' ' then '+' else c))

/-- The url_params entries contributed by one field of the filter: nothing
when the argument is absent or falsy, otherwise the mapped key with the
encoded value (wildcarded upper-cased identifier, upper-cased type and
mission, validated dates, inclusive cloud range, plus-joined text).
A date that fails validation raises ValueError. -/
def field_entry (f : SearchFilter) : FilterField → Except RunError (List (String × String))
  | FilterField.productIdentifier =>
    match f.productIdentifier with
    | some s =>
      if s.isEmpty then Except.ok []
      else Except.ok [(URL_PARAM_PRODUCT_IDENTIFIER, "%25" ++ upperString s ++ "%25")]
    | none => Except.ok []
  | FilterField.productType =>
    match f.productType with
    | some s =>
      if s.isEmpty then Except.ok []
      else Except.ok [(URL_PARAM_PRODUCT_TYPE, upperString s)]
    | none => Except.ok []
  | FilterField.mission =>
    match f.mission with
    | some s =>
      if s.isEmpty then Except.ok []
      else Except.ok [(URL_PARAM_MISSION, upperString s)]
    | none => Except.ok []
  | FilterField.obsDateMin =>
    match f.obsDateMin with
    | some s =>
      if s.isEmpty then Except.ok []
      else (validate_Rfc3339 s).map (fun v => [(URL_PARAM_OBSERVATIONDATE_AFTER, v)])
    | none => Except.ok []
  | FilterField.obsDateMax =>
    match f.obsDateMax with
    | some s =>
      if s.isEmpty then Except.ok []
      else (validate_Rfc3339 s).map (fun v => [(URL_PARAM_OBSERVATIONDATE_BEFORE, v)])
    | none => Except.ok []
  | FilterField.publicationDateMin =>
    match f.publicationDateMin with
    | some s =>
      if s.isEmpty then Except.ok []
      else (validate_Rfc3339 s).map (fun v => [(URL_PARAM_PUBLISHED_AFTER, v)])
    | none => Except.ok []
  | FilterField.publicationDateMax =>
    match f.publicationDateMax with
    | some s =>
      if s.isEmpty then Except.ok []
      else (validate_Rfc3339 s).map (fun v => [(URL_PARAM_PUBLISHED_BEFORE, v)])
    | none => Except.ok []
  | FilterField.cloudCoverageMax =>
    match f.cloudCoverageMax with
    | some n =>
      if n = 0 then Except.ok []
      else Except.ok [(URL_PARAM_CLOUD_COVER, "[0," ++ toString n ++ "]")]
    | none => Except.ok []
  | FilterField.geometry =>
    match f.geometry with
    | some s => if s.isEmpty then Except.ok [] else Except.ok [(URL_PARAM_GEOMETRY, s)]
    | none => Except.ok []
  | FilterField.textualSearch =>
    match f.textualSearch with
    | some s =>
      if s.isEmpty then Except.ok []
      else Except.ok [(URL_PARAM_TEXTUAL_SEARCH, plusForSpaces s)]
    | none => Except.ok []

/-- Collect the url_params entries of the given fields, in order; the
Python dict preserves insertion order and each field contributes a fresh
key, so the dict is this association list. -/
def collect_params (f : SearchFilter) : List FilterField → Except RunError (List (String × String))
  | [] => Except.ok []
  | fld :: rest => do
    let e ← field_entry f fld
    let r ← collect_params f rest
    return e ++ r

/-- Render the query string: ampersand-joined key=value pairs. -/
def join_params (l : List (String × String)) : String :=
  String.intercalate "&" (l.map (fun kv => kv.1 ++ "=" ++ kv.2))

/-- build_request: build url_params from the set fields; when at least one
parameter was produced, append the static parameters (dict update with
disjoint keys) and form the request URL; with no parameters, log an error
and sys.exit(-2). -/
def build_request (f : SearchFilter) : Except RunError String := do
  let url_params ← collect_params f FilterField.all
  if url_params.isEmpty then
    Except.error (RunError.usageExit (-2))
  else
    return URL_ROOT ++ "?" ++ join_params (url_params ++ URL_STATIC_PARAMS)

/-- The query phase of main when the query is built from filter arguments:
build_request, then execute_request; when build_request exits, no page
request is ever issued (the returned page count is zero and the fetcher is
never consulted). -/
def query_mode (f : SearchFilter) (fetch : Nat → Except RunError (List ProductReference))
    (max_requested_pages : Option Nat) (fuel : Nat) :
    Except RunError (List ProductReference × Bool) × Nat :=
  match build_request f with
  | Except.error e => (Except.error e, 0)
  | Except.ok _ => execute_request fetch max_requested_pages fuel

/-! ## The result-list file: serialization and parsing -/

/-- The whitespace characters stripped by the Python str.strip method
(restricted to the ASCII whitespace the script can encounter). -/
def isPySpace (c : Char) : Bool :=
  c == ' ' || c == '\t' || c == '\n' || c == '\r' || c == '\x0b' || c == '\x0c'

/-- str.strip(): remove leading and trailing whitespace. -/
def stripL (s : List Char) : List Char :=
  ((s.dropWhile isPySpace).reverse.dropWhile isPySpace).reverse

/-- str.split(c) for a single-character separator: split into the (always
non-empty) list of separated segments, keeping empty segments. -/
def splitOnChar (c : Char) : List Char → List (List Char)
  | [] => [[]]
  | a :: rest =>
    match splitOnChar c rest with
    | [] => [[]]
    | s :: ss => if a == c then [] :: s :: ss else (a :: s) :: ss

/-- Serialization of the result list as written by execute_request: one
line per product, the url and the title joined by a semicolon, each line
terminated by a newline. -/
def write_result_list (hrsi_products : List ProductReference) : List Char :=
  (hrsi_products.map (fun res => res.1 ++ (';' :: (res.2 ++ ['\n'])))).flatten

/-- The lines of the result file as seen after stripping: readlines keeps
the newline terminators, and every use of a line first strips it, so
splitting the file on newlines is an equivalent model. -/
def read_result_lines (file : List Char) : List (List Char) :=
  splitOnChar '\n' file

/-- product_list as computed in download: strip each line, keep the
non-blank ones, split each on semicolons. -/
def product_list_of (file : List Char) : List (List (List Char)) :=
  ((read_result_lines file).filter (fun x => !(stripL x).isEmpty)).map
    (fun x => splitOnChar ';' (stripL x))

/-- The product url and optional title read from one entry of
product_list inside the download loop: info_product[0] is the url
(split always yields at least one part) and info_product[1], when
present, the title. -/
def product_entry (info_product : List (List Char)) : List Char × Option (List Char) :=
  (info_product.headD [], info_product[1]?)

/-- The sequence of (url, optional title) products the download loop
iterates over, for a given result-file content. -/
def parsed_products (file : List Char) : List (List Char × Option (List Char)) :=
  (product_list_of file).map product_entry

/-! ## Token exchange (get_token, hrsi_adress) -/

/-- The parsed JSON response of the authentication endpoint; each field is
present or absent. -/
structure TokenResponse where
  error : Option String
  access_token : Option String
deriving DecidableEq

/-- A log message emitted by get_token. -/
inductive TokenLog where
  | tokenError (resp : TokenResponse)
deriving DecidableEq

/-- get_token: when the response carries an error entry, log it (the
message formats the whole response); then unconditionally return
out[access_token], which raises a KeyError when that entry is absent.
The first component is the list of logged messages. -/
def get_token (resp : TokenResponse) : List TokenLog × Except RunError String :=
  let logs : List TokenLog :=
    if resp.error.isSome then [TokenLog.tokenError resp] else []
  match resp.access_token with
  | some t => (logs, Except.ok t)
  | none => (logs, Except.error (RunError.rawKeyError "access_token"))

/-- hrsi_adress: the authenticated download URL, the product URL with the
token appended as a query parameter. -/
def hrsi_adress (adress_id : String) (resp : TokenResponse) : Except RunError String :=
  (get_token resp).2.map (fun t => adress_id ++ "?token=" ++ t)

/-! ## The download loop (download) -/

/-- Outcome of the per-product retry loop of download:
* success: the attempt with the given number succeeded, after the given
  backoff sleeps (in seconds) between earlier attempts;
* fatal: the attempt with the given number failed and the retry bound was
  reached, so the exception is re-raised (after the given earlier sleeps);
* skipped: with a non-positive retry bound the while loop never runs and
  the product is silently not downloaded. -/
inductive DownloadOutcome where
  | success (attempts : Nat) (sleeps : List Nat)
  | fatal (attempts : Nat) (sleeps : List Nat)
  | skipped
deriving DecidableEq

/-- Whether an outcome is the fatal re-raise. -/
def DownloadOutcome.isFatal : DownloadOutcome → Bool
  | DownloadOutcome.fatal _ _ => true
  | _ => false

/-- The while loop of download for one product, at the state where ntries
attempts have failed so far; gas is the remaining iteration budget
max_retry - ntries, which the loop structure keeps non-negative:
* gas 0: the while condition ntries < max_retry is false, the loop exits
  without an attempt;
* gas 1: one more attempt; on failure ntries + 1 equals max_retry, so the
  exception is re-raised (fatal) with no sleep;
* gas at least 2: one more attempt; on failure sleep 5 * (ntries + 1)
  seconds and retry.
The attempt argument tells whether the attempt with a given (1-based)
number succeeds, abstracting the token exchange, the header probe and the
transfer of that attempt. -/
def download_loop (attempt : Nat → Bool) (ntries : Nat) :
    Nat → List Nat → DownloadOutcome
  | 0, _ => DownloadOutcome.skipped
  | 1, sleeps =>
    if attempt (ntries + 1) then DownloadOutcome.success (ntries + 1) sleeps
    else DownloadOutcome.fatal (ntries + 1) sleeps
  | gas + 2, sleeps =>
    if attempt (ntries + 1) then DownloadOutcome.success (ntries + 1) sleeps
    else download_loop attempt (ntries + 1) (gas + 1) (sleeps ++ [5 * (ntries + 1)])

/-- The retry loop of download for one product, started with ntries = 0
and the given retry bound (max_retry, equal to 1 in the source). -/
def download_product (attempt : Nat → Bool) (max_retry : Nat) : DownloadOutcome :=
  download_loop attempt 0 max_retry []

/-- The loop of download over the product list: download each product in
order; a fatal outcome re-raises, which aborts the whole run, so no later
product is processed. Returns the products processed, each with its
outcome. -/
def download_all (attempt : α → Nat → Bool) (max_retry : Nat) :
    List α → List (α × DownloadOutcome)
  | [] => []
  | p :: rest =>
    match download_product (attempt p) max_retry with
    | DownloadOutcome.fatal a s => [(p, DownloadOutcome.fatal a s)]
    | DownloadOutcome.success a s =>
      (p, DownloadOutcome.success a s) :: download_all attempt max_retry rest
    | DownloadOutcome.skipped =>
      (p, DownloadOutcome.skipped) :: download_all attempt max_retry rest

/-! ## Helper lemmas about the pagination loop -/

/-- The fetcher of a run in which every page request succeeds and returns
the given products. -/
def ok_pages (pages : Nat → List ProductReference) :
    Nat → Except RunError (List ProductReference) :=
  fun i => Except.ok (pages i)

theorem execute_request_loop_stops_at_empty
    (pages : Nat → List ProductReference) (mp : Option Nat) :
    ∀ (s r fuel : Nat), s < fuel →
      pages (r + s + 1) = [] →
      (∀ j, 1 ≤ j → j ≤ s → pages (r + j) ≠ []) →
      (∀ j, j ≤ s → first_exit_condition mp (r + j) = false) →
      execute_request_loop (ok_pages pages) mp fuel r =
        (Except.ok ((List.range' (r + 1) s).flatMap pages), r + s + 1) := by
  intro s
  induction s with
  | zero =>
    intro r fuel hfuel hempty _hne hexit
    obtain ⟨f, rfl⟩ : ∃ f, fuel = f + 1 := ⟨fuel - 1, by omega⟩
    have h0 := hexit 0 (Nat.le_refl 0)
    simp only [Nat.add_zero] at h0 hempty
    simp [execute_request_loop, h0, ok_pages, hempty]
  | succ u ih =>
    intro r fuel hfuel hempty hne hexit
    obtain ⟨f, rfl⟩ : ∃ f, fuel = f + 1 := ⟨fuel - 1, by omega⟩
    have h0 := hexit 0 (Nat.zero_le _)
    simp only [Nat.add_zero] at h0
    have h1 : pages (r + 1) ≠ [] := hne 1 (Nat.le_refl 1) (by omega)
    obtain ⟨p, ps, hps⟩ : ∃ p ps, pages (r + 1) = p :: ps := by
      cases hpg : pages (r + 1) with
      | nil => exact absurd hpg h1
      | cons a l => exact ⟨a, l, rfl⟩
    have hempty2 : pages (r + 1 + u + 1) = [] := by
      rw [show r + 1 + u + 1 = r + (u + 1) + 1 from by omega]
      exact hempty
    have hne2 : ∀ j, 1 ≤ j → j ≤ u → pages (r + 1 + j) ≠ [] := by
      intro j hj1 hju
      rw [show r + 1 + j = r + (j + 1) from by omega]
      exact hne (j + 1) (by omega) (by omega)
    have hexit2 : ∀ j, j ≤ u → first_exit_condition mp (r + 1 + j) = false := by
      intro j hj
      rw [show r + 1 + j = r + (j + 1) from by omega]
      exact hexit (j + 1) (by omega)
    have hrec := ih (r + 1) f (by omega) hempty2 hne2 hexit2
    simp only [execute_request_loop, h0, ok_pages, hps, Bool.false_eq_true, if_false, hrec]
    rw [List.range'_succ]
    simp [hps]
    exact ⟨rfl, by omega⟩

theorem execute_request_loop_hits_ceiling (pages : Nat → List ProductReference) :
    ∀ (d r fuel m : Nat), m = r + d → d ≤ fuel →
      (∀ j, 1 ≤ j → j ≤ d → pages (r + j) ≠ []) →
      execute_request_loop (ok_pages pages) (some m) fuel r =
        (Except.ok ((List.range' (r + 1) d).flatMap pages), r + d) := by
  intro d
  induction d with
  | zero =>
    intro r fuel m hm _hfuel _hne
    subst hm
    cases fuel with
    | zero => simp [execute_request_loop]
    | succ f => simp [execute_request_loop, first_exit_condition]
  | succ u ih =>
    intro r fuel m hm hfuel hne
    obtain ⟨f, rfl⟩ : ∃ f, fuel = f + 1 := ⟨fuel - 1, by omega⟩
    have h0 : first_exit_condition (some m) r = false := by
      simp [first_exit_condition]
      omega
    have h1 : pages (r + 1) ≠ [] := hne 1 (Nat.le_refl 1) (by omega)
    obtain ⟨p, ps, hps⟩ : ∃ p ps, pages (r + 1) = p :: ps := by
      cases hpg : pages (r + 1) with
      | nil => exact absurd hpg h1
      | cons a l => exact ⟨a, l, rfl⟩
    have hne2 : ∀ j, 1 ≤ j → j ≤ u → pages (r + 1 + j) ≠ [] := by
      intro j hj1 hju
      rw [show r + 1 + j = r + (j + 1) from by omega]
      exact hne (j + 1) (by omega) (by omega)
    have hrec := ih (r + 1) f m (by omega) (by omega) hne2
    simp only [execute_request_loop, h0, ok_pages, hps, Bool.false_eq_true, if_false, hrec]
    rw [List.range'_succ]
    simp [hps]
    exact ⟨rfl, by omega⟩

/-! ## Claim C1 -/

/-- Claim C1: for every sequence of page responses, the paginated search
executor requests pages with index starting at 1 and incrementing by 1,
stops exactly when a page returns zero features (here the first empty page
k, pages before it being non-empty) or when the configured page ceiling is
reached, and the accumulated collection contains exactly the references
extracted from the pages fetched before the empty page, in order. With no
ceiling, or a ceiling of at least k, the loop requests pages 1..k and
accumulates pages 1..k-1; with a ceiling m below k it requests pages 1..m
and accumulates all of them; the persisted result is the deduplication of
that accumulation. -/
theorem execute_request_pagination (pages : Nat → List ProductReference) (k fuel : Nat)
    (h1 : 1 ≤ k) (hk : pages k = [])
    (hne : ∀ n, 1 ≤ n → n < k → pages n ≠ []) (hfuel : k ≤ fuel) :
    execute_request_loop (ok_pages pages) none fuel 0 =
      (Except.ok ((List.range' 1 (k - 1)).flatMap pages), k) ∧
    (∀ m, k ≤ m → execute_request_loop (ok_pages pages) (some m) fuel 0 =
      (Except.ok ((List.range' 1 (k - 1)).flatMap pages), k)) ∧
    (∀ m, m < k → execute_request_loop (ok_pages pages) (some m) fuel 0 =
      (Except.ok ((List.range' 1 m).flatMap pages), m)) ∧
    (execute_request (ok_pages pages) none fuel).1 =
      Except.ok (((List.range' 1 (k - 1)).flatMap pages).dedup,
        decide (((List.range' 1 (k - 1)).flatMap pages).dedup.length ≠
          ((List.range' 1 (k - 1)).flatMap pages).length)) := by
  obtain ⟨s, rfl⟩ : ∃ s, k = s + 1 := ⟨k - 1, by omega⟩
  have hempty : pages (0 + s + 1) = [] := by
    rw [show 0 + s + 1 = s + 1 from by omega]
    exact hk
  have hne0 : ∀ j, 1 ≤ j → j ≤ s → pages (0 + j) ≠ [] := by
    intro j hj1 hjs
    rw [show 0 + j = j from by omega]
    exact hne j hj1 (by omega)
  have ha := execute_request_loop_stops_at_empty pages none s 0 fuel (by omega)
    hempty hne0 (fun _ _ => rfl)
  rw [show 0 + s + 1 = s + 1 from by omega] at ha
  rw [show s + 1 - 1 = s from by omega]
  refine ⟨ha, ?_, ?_, ?_⟩
  · intro m hm
    have hexit : ∀ j, j ≤ s → first_exit_condition (some m) (0 + j) = false := by
      intro j hj
      simp [first_exit_condition]
      omega
    have hb := execute_request_loop_stops_at_empty pages (some m) s 0 fuel (by omega)
      hempty hne0 hexit
    rw [show 0 + s + 1 = s + 1 from by omega] at hb
    exact hb
  · intro m hm
    have hnem : ∀ j, 1 ≤ j → j ≤ m → pages (0 + j) ≠ [] := by
      intro j hj1 hjm
      exact hne0 j hj1 (by omega)
    have hc := execute_request_loop_hits_ceiling pages m 0 fuel m (by omega) (by omega) hnem
    rw [show 0 + m = m from by omega] at hc
    exact hc
  · unfold execute_request
    rw [ha]
    rfl

/-- Concrete pages for the C1 witness: pages 1 and 2 carry one product
each, page 3 is empty. -/
def pagesC1 : Nat → List ProductReference := fun i =>
  if i = 1 then [(['u'], ['t'])] else if i = 2 then [(['v'], ['w'])] else []

/-- Witness for C1: on a concrete run with first empty page 3, the loop
requests 3 pages with no ceiling (or ceiling 7) and accumulates pages 1
and 2; with ceiling 1 it requests and accumulates only page 1; the final
result is the deduplicated accumulation with no duplicate warning. -/
theorem execute_request_pagination_witness :
    execute_request_loop (ok_pages pagesC1) none 5 0 =
      (Except.ok [(['u'], ['t']), (['v'], ['w'])], 3) ∧
    execute_request_loop (ok_pages pagesC1) (some 7) 5 0 =
      (Except.ok [(['u'], ['t']), (['v'], ['w'])], 3) ∧
    execute_request_loop (ok_pages pagesC1) (some 1) 5 0 =
      (Except.ok [(['u'], ['t'])], 1) ∧
    (execute_request (ok_pages pagesC1) none 5).1 =
      Except.ok ([(['u'], ['t']), (['v'], ['w'])], false) := by
  have h := execute_request_pagination pagesC1 3 5 (by omega) (by decide)
    (by intro n hn1 hn2; interval_cases n <;> decide) (by omega)
  exact ⟨h.1, h.2.1 7 (by omega), h.2.2.1 1 (by omega), h.2.2.2⟩

/-! ## Claim C7 -/

/-- The entirely empty search filter: no argument given. -/
def empty_filter : SearchFilter := {}

/-- Claim C7: for an entirely empty SearchFilter, query construction fails
with the usage error sys.exit(-2) (a distinguished non-zero status), and
no network call is made: the query phase returns without consulting the
page fetcher at all (its result is the same for every fetcher and the
number of requested pages is zero). -/
theorem empty_filter_usage_error :
    ∀ (fetch : Nat → Except RunError (List ProductReference))
      (max_requested_pages : Option Nat) (fuel : Nat),
    build_request empty_filter = Except.error (RunError.usageExit (-2)) ∧
    query_mode empty_filter fetch max_requested_pages fuel =
      (Except.error (RunError.usageExit (-2)), 0) ∧
    (-2 : Int) ≠ 0 := by
  intro fetch max_requested_pages fuel
  exact ⟨rfl, rfl, by decide⟩

/-! ## Claim C2 -/

/-- Claim C2, counterexample to the claim as stated: a page response whose
body lacks the features container does not get reported with diagnostic
context: the modelled request_page emits no log message at all for such a
page (the diagnostic logging.error call dies on the undefined name
url_params_page before logging), so the claimed report with the raw
response and the parameters used never happens. -/
theorem request_page_no_features_counterexample :
    (request_page (PageBody.mk none)).1 = [] ∧
    (request_page (PageBody.mk none)).2 = Except.error RunError.nameErrorUrlParamsPage :=
  ⟨rfl, rfl⟩

/-- Claim C2 (amended): for every page response whose body lacks the
features container, the run aborts — the except branch raises NameError on
the undefined name url_params_page while composing the diagnostic, so no
diagnostic message with the raw response and parameters is actually
logged — and such a page is never treated as a page of zero features: the
page result is never a product list, and a pagination run whose first page
lacks the container stops with the NameError instead of terminating
normally. -/
theorem request_page_missing_features_aborts (body : PageBody)
    (h : body.features = none) :
    request_page body = ([], Except.error RunError.nameErrorUrlParamsPage) ∧
    (∀ l, (request_page body).2 ≠ Except.ok l) ∧
    (∀ (bodies : Nat → PageBody) (fuel : Nat), bodies 1 = body → 1 ≤ fuel →
      (execute_request_loop (page_fetcher bodies) none fuel 0).1 =
        Except.error RunError.nameErrorUrlParamsPage) := by
  have hrp : request_page body = ([], Except.error RunError.nameErrorUrlParamsPage) := by
    unfold request_page
    rw [h]
  refine ⟨hrp, ?_, ?_⟩
  · intro l hl
    rw [hrp] at hl
    exact Except.noConfusion hl
  · intro bodies fuel hb hf
    obtain ⟨f, rfl⟩ : ∃ f, fuel = f + 1 := ⟨fuel - 1, by omega⟩
    simp [execute_request_loop, first_exit_condition, page_fetcher, hb, hrp]

/-- Witness for the amended C2: the concrete featureless body aborts with
the NameError, is not read as zero features, and aborts a run whose first
page is that body. -/
theorem request_page_missing_features_aborts_witness :
    request_page (PageBody.mk none) = ([], Except.error RunError.nameErrorUrlParamsPage) ∧
    (request_page (PageBody.mk none)).2 ≠ Except.ok [] ∧
    (execute_request_loop (page_fetcher (fun _ => PageBody.mk none)) none 1 0).1 =
      Except.error RunError.nameErrorUrlParamsPage := by
  have h := request_page_missing_features_aborts (PageBody.mk none) rfl
  exact ⟨h.1, h.2.1 [], h.2.2 (fun _ => PageBody.mk none) 1 rfl (by omega)⟩

/-! ## Claim C3 -/

/-- Claim C3, counterexample to the claim as stated: with the source
baseline max_retry = 1, a download failing on attempt 1 that would succeed
on attempt 2 does not produce a success outcome with a backoff sleep; the
loop re-raises fatally after the single attempt, with no sleep, and
attempt 2 never happens. -/
theorem download_retry_counterexample :
    download_product (fun i => decide (2 ≤ i)) 1 = DownloadOutcome.fatal 1 [] ∧
    (download_product (fun i => decide (2 ≤ i)) 1).isFatal = true ∧
    download_product (fun i => decide (2 ≤ i)) 1 ≠ DownloadOutcome.success 2 [5] :=
  ⟨rfl, rfl, by decide⟩

/-- Claim C3 (amended): the baseline bound max_retry = 1 permits exactly
one attempt, so a download failing on attempt 1 aborts fatally at once,
with no backoff sleep and no second attempt; only with the bound raised to
2 does a download failing on attempt 1 and succeeding on attempt 2 produce
a success outcome, with the linear backoff delay 5 * 1 slept between the
attempts. -/
theorem download_retry_amended (attempt : Nat → Bool) (hfail : attempt 1 = false) :
    download_product attempt 1 = DownloadOutcome.fatal 1 [] ∧
    (attempt 2 = true → download_product attempt 2 = DownloadOutcome.success 2 [5 * 1]) := by
  have e1 : download_product attempt 1 =
      if attempt 1 then DownloadOutcome.success 1 [] else DownloadOutcome.fatal 1 [] := rfl
  have e2 : download_product attempt 2 =
      if attempt 1 then DownloadOutcome.success 1 []
      else if attempt 2 then DownloadOutcome.success 2 [5 * 1]
      else DownloadOutcome.fatal 2 [5 * 1] := rfl
  constructor
  · rw [e1, hfail]
    rfl
  · intro hsucc
    rw [e2, hfail, hsucc]
    rfl

/-- Witness for the amended C3: a concrete attempt sequence failing on
attempt 1 and succeeding from attempt 2 on is fatal under the baseline
bound 1 and succeeds with one 5-second backoff under bound 2. -/
theorem download_retry_amended_witness :
    download_product (fun i => decide (2 ≤ i)) 1 = DownloadOutcome.fatal 1 [] ∧
    download_product (fun i => decide (2 ≤ i)) 2 = DownloadOutcome.success 2 [5 * 1] := by
  have h := download_retry_amended (fun i => decide (2 ≤ i)) (by decide)
  exact ⟨h.1, h.2 (by decide)⟩

/-! ## Claim C5 -/

/-- Claim C5: for every result list, if the download of some product
exhausts its retries (a fatal outcome) while every earlier product does
not, the downloader processes exactly the earlier products and the failed
one, and no product after the failed one is ever processed: the raised
exception halts the run. -/
theorem download_halts_on_fatal {α : Type} (attempt : α → Nat → Bool) (max_retry : Nat)
    (pre : List α) (p : α) (post : List α) (a : Nat) (s : List Nat)
    (hpre : ∀ q ∈ pre, (download_product (attempt q) max_retry).isFatal = false)
    (hp : download_product (attempt p) max_retry = DownloadOutcome.fatal a s) :
    download_all attempt max_retry (pre ++ p :: post) =
      pre.map (fun q => (q, download_product (attempt q) max_retry)) ++
        [(p, DownloadOutcome.fatal a s)] := by
  induction pre with
  | nil => simp [download_all, hp]
  | cons q rest ih =>
    have hq := hpre q (List.mem_cons_self q rest)
    have hrest : ∀ x ∈ rest, (download_product (attempt x) max_retry).isFatal = false :=
      fun x hx => hpre x (List.mem_cons_of_mem q hx)
    cases ho : download_product (attempt q) max_retry with
    | fatal a2 s2 =>
      rw [ho] at hq
      exact absurd hq (by simp [DownloadOutcome.isFatal])
    | success a2 s2 => simp [download_all, ho, ih hrest]
    | skipped => simp [download_all, ho, ih hrest]

/-- Witness for C5: in a concrete three-product list where product 1
succeeds and product 2 is fatal, exactly products 1 and 2 are processed
and product 3 is not. -/
theorem download_halts_on_fatal_witness :
    download_all (fun (q : Nat) _ => q == 1) 1 [1, 2, 3] =
      [(1, DownloadOutcome.success 1 []), (2, DownloadOutcome.fatal 1 [])] := by
  have h := download_halts_on_fatal (fun (q : Nat) _ => q == 1) 1 [1] 2 [3] 1 []
    (by decide) (by decide)
  exact h

/-! ## Claim C9 -/

/-- Claim C9, counterexample to the claim as stated: an authentication
response that carries both an error field and an access_token field does
yield a usable access token: get_token logs the error but then returns
out[access_token] unconditionally, and the download address is built from
it. -/
theorem get_token_error_counterexample :
    (TokenResponse.mk (some "invalid_grant") (some "TOK")).error.isSome = true ∧
    (get_token (TokenResponse.mk (some "invalid_grant") (some "TOK"))).2 =
      Except.ok "TOK" ∧
    hrsi_adress "https://e/p" (TokenResponse.mk (some "invalid_grant") (some "TOK")) =
      Except.ok "https://e/p?token=TOK" :=
  ⟨rfl, rfl, rfl⟩

/-- Claim C9 (amended): for every authentication response containing an
error field, get_token logs the error (the message carries the whole
response); token retrieval then fails only when the response has no
access_token field (the unconditional dictionary access raises KeyError);
when an access_token field is present its value is returned and used to
build the authenticated download address despite the logged error. -/
theorem get_token_error_behavior (resp : TokenResponse)
    (herr : resp.error.isSome = true) :
    (get_token resp).1 = [TokenLog.tokenError resp] ∧
    ((get_token resp).2 = Except.error (RunError.rawKeyError "access_token") ↔
      resp.access_token = none) ∧
    (∀ t, resp.access_token = some t → (get_token resp).2 = Except.ok t ∧
      ∀ url, hrsi_adress url resp = Except.ok (url ++ "?token=" ++ t)) := by
  cases hat : resp.access_token with
  | none =>
    refine ⟨by simp [get_token, herr, hat], by simp [get_token, herr, hat], ?_⟩
    intro t ht
    exact Option.noConfusion ht
  | some t0 =>
    refine ⟨by simp [get_token, herr, hat], by simp [get_token, herr, hat], ?_⟩
    intro t ht
    have : t0 = t := Option.some.inj ht
    subst this
    exact ⟨by simp [get_token, herr, hat], fun url => by simp [hrsi_adress, get_token, herr, hat, Except.map]⟩

/-- Witness for the amended C9: a concrete response with an error field
and no access_token logs the error and fails with the KeyError. -/
theorem get_token_error_behavior_witness :
    (get_token (TokenResponse.mk (some "bad") none)).1 =
      [TokenLog.tokenError (TokenResponse.mk (some "bad") none)] ∧
    (get_token (TokenResponse.mk (some "bad") none)).2 =
      Except.error (RunError.rawKeyError "access_token") := by
  have h := get_token_error_behavior (TokenResponse.mk (some "bad") none) rfl
  exact ⟨h.1, h.2.1.mpr rfl⟩

/-! ## Claim C4 -/

/-- Validity of an optional date argument: whenever it is set (present and
non-empty), it passes the strptime check. -/
def date_ok (o : Option String) : Prop :=
  ∀ s, o = some s → s.isEmpty = false → isRfc3339 s = true

theorem field_entry_keys (f : SearchFilter)
    (h1 : date_ok f.obsDateMin) (h2 : date_ok f.obsDateMax)
    (h3 : date_ok f.publicationDateMin) (h4 : date_ok f.publicationDateMax) :
    ∀ fld, ∃ l, field_entry f fld = Except.ok l ∧
      l.map Prod.fst = (if is_set f fld then [param_key fld] else []) := by
  intro fld
  cases fld
  case productIdentifier =>
    cases ho : f.productIdentifier with
    | none => exact ⟨[], by simp [field_entry, ho], by simp [is_set, truthyS, ho]⟩
    | some s =>
      by_cases he : s.isEmpty
      · exact ⟨[], by simp [field_entry, ho, he], by simp [is_set, truthyS, ho, he]⟩
      · exact ⟨[(URL_PARAM_PRODUCT_IDENTIFIER, "%25" ++ upperString s ++ "%25")],
          by simp [field_entry, ho, he], by simp [is_set, truthyS, ho, he, param_key]⟩
  case productType =>
    cases ho : f.productType with
    | none => exact ⟨[], by simp [field_entry, ho], by simp [is_set, truthyS, ho]⟩
    | some s =>
      by_cases he : s.isEmpty
      · exact ⟨[], by simp [field_entry, ho, he], by simp [is_set, truthyS, ho, he]⟩
      · exact ⟨[(URL_PARAM_PRODUCT_TYPE, upperString s)],
          by simp [field_entry, ho, he], by simp [is_set, truthyS, ho, he, param_key]⟩
  case mission =>
    cases ho : f.mission with
    | none => exact ⟨[], by simp [field_entry, ho], by simp [is_set, truthyS, ho]⟩
    | some s =>
      by_cases he : s.isEmpty
      · exact ⟨[], by simp [field_entry, ho, he], by simp [is_set, truthyS, ho, he]⟩
      · exact ⟨[(URL_PARAM_MISSION, upperString s)],
          by simp [field_entry, ho, he], by simp [is_set, truthyS, ho, he, param_key]⟩
  case obsDateMin =>
    cases ho : f.obsDateMin with
    | none => exact ⟨[], by simp [field_entry, ho], by simp [is_set, truthyS, ho]⟩
    | some s =>
      by_cases he : s.isEmpty
      · exact ⟨[], by simp [field_entry, ho, he], by simp [is_set, truthyS, ho, he]⟩
      · have hv : isRfc3339 s = true := h1 s ho (by simpa using he)
        exact ⟨[(URL_PARAM_OBSERVATIONDATE_AFTER, s)],
          by simp [field_entry, ho, he, validate_Rfc3339, hv, Except.map],
          by simp [is_set, truthyS, ho, he, param_key]⟩
  case obsDateMax =>
    cases ho : f.obsDateMax with
    | none => exact ⟨[], by simp [field_entry, ho], by simp [is_set, truthyS, ho]⟩
    | some s =>
      by_cases he : s.isEmpty
      · exact ⟨[], by simp [field_entry, ho, he], by simp [is_set, truthyS, ho, he]⟩
      · have hv : isRfc3339 s = true := h2 s ho (by simpa using he)
        exact ⟨[(URL_PARAM_OBSERVATIONDATE_BEFORE, s)],
          by simp [field_entry, ho, he, validate_Rfc3339, hv, Except.map],
          by simp [is_set, truthyS, ho, he, param_key]⟩
  case publicationDateMin =>
    cases ho : f.publicationDateMin with
    | none => exact ⟨[], by simp [field_entry, ho], by simp [is_set, truthyS, ho]⟩
    | some s =>
      by_cases he : s.isEmpty
      · exact ⟨[], by simp [field_entry, ho, he], by simp [is_set, truthyS, ho, he]⟩
      · have hv : isRfc3339 s = true := h3 s ho (by simpa using he)
        exact ⟨[(URL_PARAM_PUBLISHED_AFTER, s)],
          by simp [field_entry, ho, he, validate_Rfc3339, hv, Except.map],
          by simp [is_set, truthyS, ho, he, param_key]⟩
  case publicationDateMax =>
    cases ho : f.publicationDateMax with
    | none => exact ⟨[], by simp [field_entry, ho], by simp [is_set, truthyS, ho]⟩
    | some s =>
      by_cases he : s.isEmpty
      · exact ⟨[], by simp [field_entry, ho, he], by simp [is_set, truthyS, ho, he]⟩
      · have hv : isRfc3339 s = true := h4 s ho (by simpa using he)
        exact ⟨[(URL_PARAM_PUBLISHED_BEFORE, s)],
          by simp [field_entry, ho, he, validate_Rfc3339, hv, Except.map],
          by simp [is_set, truthyS, ho, he, param_key]⟩
  case cloudCoverageMax =>
    cases ho : f.cloudCoverageMax with
    | none => exact ⟨[], by simp [field_entry, ho], by simp [is_set, truthyI, ho]⟩
    | some n =>
      by_cases hz : n = 0
      · exact ⟨[], by simp [field_entry, ho, hz], by simp [is_set, truthyI, ho, hz]⟩
      · exact ⟨[(URL_PARAM_CLOUD_COVER, "[0," ++ toString n ++ "]")],
          by simp [field_entry, ho, hz], by simp [is_set, truthyI, ho, hz, param_key]⟩
  case geometry =>
    cases ho : f.geometry with
    | none => exact ⟨[], by simp [field_entry, ho], by simp [is_set, truthyS, ho]⟩
    | some s =>
      by_cases he : s.isEmpty
      · exact ⟨[], by simp [field_entry, ho, he], by simp [is_set, truthyS, ho, he]⟩
      · exact ⟨[(URL_PARAM_GEOMETRY, s)],
          by simp [field_entry, ho, he], by simp [is_set, truthyS, ho, he, param_key]⟩
  case textualSearch =>
    cases ho : f.textualSearch with
    | none => exact ⟨[], by simp [field_entry, ho], by simp [is_set, truthyS, ho]⟩
    | some s =>
      by_cases he : s.isEmpty
      · exact ⟨[], by simp [field_entry, ho, he], by simp [is_set, truthyS, ho, he]⟩
      · exact ⟨[(URL_PARAM_TEXTUAL_SEARCH, plusForSpaces s)],
          by simp [field_entry, ho, he], by simp [is_set, truthyS, ho, he, param_key]⟩

theorem collect_params_keys (f : SearchFilter) :
    ∀ flds : List FilterField,
      (∀ fld ∈ flds, ∃ l, field_entry f fld = Except.ok l ∧
        l.map Prod.fst = (if is_set f fld then [param_key fld] else [])) →
      ∃ ps, collect_params f flds = Except.ok ps ∧
        ps.map Prod.fst = (flds.filter (is_set f)).map param_key := by
  intro flds
  induction flds with
  | nil => exact fun _ => ⟨[], rfl, rfl⟩
  | cons fld rest ih =>
    intro hall
    obtain ⟨l, hl, hlk⟩ := hall fld (List.mem_cons_self fld rest)
    obtain ⟨ps, hps, hpk⟩ := ih (fun x hx => hall x (List.mem_cons_of_mem fld hx))
    refine ⟨l ++ ps, ?_, ?_⟩
    · simp only [collect_params, hl, hps]
      rfl
    · rw [List.map_append, hlk, hpk, List.filter_cons]
      by_cases hset : is_set f fld <;> simp [hset]

/-- The claim C4 reading of a set field: the argument is present, whether
or not it is Python-truthy. This definition renders the claim words ("the
fields that were set"); the test the source actually performs is is_set
(Python truthiness), which also excludes present falsy values. -/
def is_present (f : SearchFilter) : FilterField → Bool
  | FilterField.productIdentifier => f.productIdentifier.isSome
  | FilterField.productType => f.productType.isSome
  | FilterField.mission => f.mission.isSome
  | FilterField.obsDateMin => f.obsDateMin.isSome
  | FilterField.obsDateMax => f.obsDateMax.isSome
  | FilterField.publicationDateMin => f.publicationDateMin.isSome
  | FilterField.publicationDateMax => f.publicationDateMax.isSome
  | FilterField.cloudCoverageMax => f.cloudCoverageMax.isSome
  | FilterField.geometry => f.geometry.isSome
  | FilterField.textualSearch => f.textualSearch.isSome

/-- Concrete filter for the C4 counterexample: product type FSC and a
maximal cloud coverage of 0 (within the documented 0-100 percent range)
are both set. -/
def filterC4cex : SearchFilter :=
  { productType := some "FSC", cloudCoverageMax := some 0 }

/-- Concrete filter whose only set field is a maximal cloud coverage of
0. -/
def onlyCloudZeroFilter : SearchFilter := { cloudCoverageMax := some 0 }

set_option maxRecDepth 4000 in
/-- Claim C4, counterexample to the claim as stated: cloudCoverageMax = 0
is a set field of the filter (present, and within the documented 0-100
range), yet the builder drops it, because the source tests Python
truthiness (if cloudCoverageMax:) and 0 is falsy. With product type FSC
also set, the produced parameters are only productType plus the static
parameters — no cloudCover key appears — and with cloud coverage 0 as the
only set field, query construction does not produce a query at all but
fails with the usage exit. -/
theorem build_request_param_keys_counterexample :
    is_present filterC4cex FilterField.cloudCoverageMax = true ∧
    collect_params filterC4cex FilterField.all = Except.ok [("productType", "FSC")] ∧
    build_request filterC4cex = Except.ok (URL_ROOT ++ "?" ++
      join_params ([("productType", "FSC")] ++ URL_STATIC_PARAMS)) ∧
    URL_PARAM_CLOUD_COVER ∉
      (([("productType", "FSC")] : List (String × String)) ++
        URL_STATIC_PARAMS).map Prod.fst ∧
    is_present onlyCloudZeroFilter FilterField.cloudCoverageMax = true ∧
    build_request onlyCloudZeroFilter = Except.error (RunError.usageExit (-2)) := by
  refine ⟨rfl, by decide, ?_, by decide, rfl, rfl⟩
  decide

/-- Claim C4 (amended): for every SearchFilter with at least one field set
in the sense of the source (present and Python-truthy: a non-empty
string, a non-zero integer) whose set date fields are valid, build_request
succeeds and the key sequence of the produced query parameters is exactly
the catalogue-mapped keys of the truthy fields, in source order, followed
by all the static parameter keys (status, page size, dataset selector,
sort field and order): no truthy field is dropped and no other field key
appears — in particular a present but falsy field (empty string, or cloud
coverage 0) contributes no key, as though it were unset. -/
theorem build_request_param_keys (f : SearchFilter)
    (h1 : date_ok f.obsDateMin) (h2 : date_ok f.obsDateMax)
    (h3 : date_ok f.publicationDateMin) (h4 : date_ok f.publicationDateMax)
    (hset : FilterField.all.any (is_set f) = true) :
    ∃ ps, collect_params f FilterField.all = Except.ok ps ∧
      ps.map Prod.fst = (FilterField.all.filter (is_set f)).map param_key ∧
      build_request f = Except.ok (URL_ROOT ++ "?" ++ join_params (ps ++ URL_STATIC_PARAMS)) ∧
      (ps ++ URL_STATIC_PARAMS).map Prod.fst =
        (FilterField.all.filter (is_set f)).map param_key ++ STATIC_KEYS := by
  obtain ⟨ps, hps, hkeys⟩ :=
    collect_params_keys f FilterField.all
      (fun fld _ => field_entry_keys f h1 h2 h3 h4 fld)
  have hfilter : FilterField.all.filter (is_set f) ≠ [] := by
    obtain ⟨fld, hmem, hsf⟩ := List.any_eq_true.mp hset
    intro hnil
    have : fld ∈ FilterField.all.filter (is_set f) := List.mem_filter.mpr ⟨hmem, hsf⟩
    rw [hnil] at this
    exact List.not_mem_nil fld this
  have hnonnil : ps ≠ [] := by
    intro hnil
    rw [hnil] at hkeys
    exact hfilter (List.map_eq_nil_iff.mp hkeys.symm)
  refine ⟨ps, hps, hkeys, ?_, ?_⟩
  · unfold build_request
    rw [hps]
    have hie : ps.isEmpty = false := by
      cases ps with
      | nil => exact absurd rfl hnonnil
      | cons a t => rfl
    show (if ps.isEmpty = true then Except.error (RunError.usageExit (-2))
      else pure (URL_ROOT ++ "?" ++ join_params (ps ++ URL_STATIC_PARAMS))) =
      Except.ok (URL_ROOT ++ "?" ++ join_params (ps ++ URL_STATIC_PARAMS))
    rw [hie]
    simp [pure, Except.pure]
  · rw [List.map_append, hkeys]
    rfl

/-- Concrete filter for the C4 witness: product type and a valid
observation start date set, everything else absent. -/
def filterC4 : SearchFilter :=
  { productType := some "fsc", obsDateMin := some "2020-06-01T00:00:00Z" }

/-- Witness for C4: on the concrete filter, the produced parameters are
exactly the mapped keys of the two set fields followed by the static
parameters. -/
theorem build_request_param_keys_witness :
    collect_params filterC4 FilterField.all =
      Except.ok [("productType", "FSC"), ("startDate", "2020-06-01T00:00:00Z")] ∧
    build_request filterC4 = Except.ok (URL_ROOT ++ "?" ++
      join_params ([("productType", "FSC"), ("startDate", "2020-06-01T00:00:00Z")] ++
        URL_STATIC_PARAMS)) := by
  have hd : date_ok filterC4.obsDateMin := by
    intro s hs _he
    cases Option.some.inj hs
    decide
  have hn1 : date_ok filterC4.obsDateMax := fun s hs => absurd hs (by simp [filterC4])
  have hn2 : date_ok filterC4.publicationDateMin := fun s hs => absurd hs (by simp [filterC4])
  have hn3 : date_ok filterC4.publicationDateMax := fun s hs => absurd hs (by simp [filterC4])
  obtain ⟨ps, hps, _hkeys, hbr, _hall⟩ :=
    build_request_param_keys filterC4 hd hn1 hn2 hn3 (by decide)
  have hval : collect_params filterC4 FilterField.all =
      Except.ok [("productType", "FSC"), ("startDate", "2020-06-01T00:00:00Z")] := by decide
  have hps2 : ps = [("productType", "FSC"), ("startDate", "2020-06-01T00:00:00Z")] := by
    rw [hps] at hval
    exact Except.ok.inj hval
  rw [hps2] at hbr
  exact ⟨hval, hbr⟩

/-! ## Claim C6 -/

theorem count_flatMap {β : Type} [DecidableEq β] (l : List β)
    (f : β → List ProductReference) (b : ProductReference) :
    ((l.flatMap f).count b) = (l.map (fun a => (f a).count b)).sum := by
  induction l with
  | nil => rfl
  | cons a t ih => simp [List.flatMap_cons, List.count_append, ih]

theorem nodup_count_le_one {β : Type} [BEq β] [LawfulBEq β] (l : List β)
    (hnd : l.Nodup) (p : β) : l.count p ≤ 1 := by
  induction l with
  | nil => simp
  | cons a t ih =>
    have h1 : a ∉ t := (List.nodup_cons.mp hnd).1
    have h2 : t.Nodup := (List.nodup_cons.mp hnd).2
    rw [List.count_cons]
    by_cases hpa : a = p
    · subst hpa
      have : t.count a = 0 := List.count_eq_zero_of_not_mem h1
      simp [this]
    · have : (a == p) = false := beq_eq_false_iff_ne.mpr hpa
      simp [this]
      exact ih h2

theorem two_mem_sum_le {β : Type} [DecidableEq β] (l : List β) (g : β → Nat) (i j : β)
    (hnd : l.Nodup) (hi : i ∈ l) (hj : j ∈ l) (hij : i ≠ j) :
    g i + g j ≤ (l.map g).sum := by
  induction l with
  | nil => cases hi
  | cons a t ih =>
    have hnd2 := (List.nodup_cons.mp hnd).2
    rcases List.mem_cons.mp hi with rfl | hi2
    · have hj2 : j ∈ t := by
        rcases List.mem_cons.mp hj with rfl | h2
        · exact absurd rfl hij
        · exact h2
      have : g j ≤ (t.map g).sum := List.le_sum_of_mem (List.mem_map_of_mem g hj2)
      simp only [List.map_cons, List.sum_cons]
      omega
    · rcases List.mem_cons.mp hj with rfl | hj2
      · have : g i ≤ (t.map g).sum := List.le_sum_of_mem (List.mem_map_of_mem g hi2)
        simp only [List.map_cons, List.sum_cons]
        omega
      · have := ih hnd2 hi2 hj2
        simp only [List.map_cons, List.sum_cons]
        omega

/-- Claim C6: when two distinct fetched pages (both before the first empty
page k) contain a feature with the same (url, title) pair p, the final
result list of the run contains exactly one entry for p and the duplicate
warning is recorded; and every accumulated reference is kept in the final
list (so two references differing in url or title are both kept), since
equality is by the full pair. -/
theorem duplicate_products_collapsed (pages : Nat → List ProductReference)
    (k i j fuel : Nat) (p : ProductReference)
    (h1 : 1 ≤ k) (hk : pages k = [])
    (hne : ∀ n, 1 ≤ n → n < k → pages n ≠ []) (hfuel : k ≤ fuel)
    (hi1 : 1 ≤ i) (hik : i < k) (hj1 : 1 ≤ j) (hjk : j < k) (hij : i ≠ j)
    (hpi : p ∈ pages i) (hpj : p ∈ pages j) :
    (execute_request (ok_pages pages) none fuel).1 =
      Except.ok (((List.range' 1 (k - 1)).flatMap pages).dedup, true) ∧
    ((List.range' 1 (k - 1)).flatMap pages).dedup.count p = 1 ∧
    (∀ q, q ∈ (List.range' 1 (k - 1)).flatMap pages ↔
      q ∈ ((List.range' 1 (k - 1)).flatMap pages).dedup) := by
  have hiR : i ∈ List.range' 1 (k - 1) := List.mem_range'_1.mpr ⟨hi1, by omega⟩
  have hjR : j ∈ List.range' 1 (k - 1) := List.mem_range'_1.mpr ⟨hj1, by omega⟩
  have hcount : 2 ≤ ((List.range' 1 (k - 1)).flatMap pages).count p := by
    rw [count_flatMap]
    have hnd : (List.range' 1 (k - 1)).Nodup := List.nodup_range' 1 (k - 1)
    have hsum := two_mem_sum_le (List.range' 1 (k - 1))
      (fun a => (pages a).count p) i j hnd hiR hjR hij
    have hci : 0 < (pages i).count p := List.count_pos_iff.mpr hpi
    have hcj : 0 < (pages j).count p := List.count_pos_iff.mpr hpj
    simp only at hsum
    omega
  have hdup : ¬ ((List.range' 1 (k - 1)).flatMap pages).Nodup := by
    intro hnd
    have := nodup_count_le_one ((List.range' 1 (k - 1)).flatMap pages) hnd p
    omega
  have hlen : ((List.range' 1 (k - 1)).flatMap pages).dedup.length ≠
      ((List.range' 1 (k - 1)).flatMap pages).length := by
    intro heq
    have hsub := List.dedup_sublist ((List.range' 1 (k - 1)).flatMap pages)
    have heq2 := hsub.eq_of_length heq
    have := heq2 ▸ List.nodup_dedup ((List.range' 1 (k - 1)).flatMap pages)
    exact hdup this
  have hmemp : p ∈ (List.range' 1 (k - 1)).flatMap pages :=
    List.count_pos_iff.mp (by omega)
  refine ⟨?_, ?_, ?_⟩
  · have ha := (execute_request_pagination pages k fuel h1 hk hne hfuel).2.2.2
    rw [ha, decide_eq_true hlen]
  · have hup : ((List.range' 1 (k - 1)).flatMap pages).dedup.count p ≤ 1 :=
      nodup_count_le_one _ (List.nodup_dedup _) p
    have hlow : 0 < ((List.range' 1 (k - 1)).flatMap pages).dedup.count p :=
      List.count_pos_iff.mpr (List.mem_dedup.mpr hmemp)
    omega
  · intro q
    exact Iff.symm List.mem_dedup

/-- Concrete pages for the C6 witness: the pair (u, t) appears on pages 1
and 2, the pair (u, s) differing in title only on page 1; page 3 is
empty. -/
def pagesC6 : Nat → List ProductReference := fun n =>
  if n = 1 then [(['u'], ['t']), (['u'], ['s'])]
  else if n = 2 then [(['u'], ['t'])] else []

/-- Witness for C6: in the concrete run, the result is the deduplicated
accumulation with the duplicate warning set, the duplicated pair counts
once, and the pair differing only in title is kept. -/
theorem duplicate_products_collapsed_witness :
    (execute_request (ok_pages pagesC6) none 3).1 =
      Except.ok (((List.range' 1 2).flatMap pagesC6).dedup, true) ∧
    ((List.range' 1 2).flatMap pagesC6).dedup.count (['u'], ['t']) = 1 ∧
    ((['u'], ['s']) ∈ ((List.range' 1 2).flatMap pagesC6).dedup) := by
  have h := duplicate_products_collapsed pagesC6 3 1 2 3 (['u'], ['t'])
    (by omega) (by decide) (by intro n hn1 hn2; interval_cases n <;> decide) (by omega)
    (by omega) (by omega) (by omega) (by omega) (by omega) (by decide) (by decide)
  refine ⟨h.1, h.2.1, ?_⟩
  exact (h.2.2 (['u'], ['s'])).mp (by decide)

/-! ## Claim C8 -/

theorem splitOnChar_ne_nil (c : Char) (l : List Char) : splitOnChar c l ≠ [] := by
  induction l with
  | nil => simp [splitOnChar]
  | cons a t ih =>
    cases h : splitOnChar c t with
    | nil => exact absurd h ih
    | cons s ss =>
      by_cases hac : a == c <;> simp [splitOnChar, h, hac]

theorem splitOnChar_not_mem {c : Char} {l : List Char} (h : c ∉ l) :
    splitOnChar c l = [l] := by
  induction l with
  | nil => rfl
  | cons a t ih =>
    have hat : c ∉ t := fun hc => h (List.mem_cons_of_mem a hc)
    have hac : (a == c) = false :=
      beq_eq_false_iff_ne.mpr (fun he => h (he ▸ List.mem_cons_self a t))
    simp [splitOnChar, ih hat, hac]

theorem splitOnChar_append {c : Char} {l r : List Char} (h : c ∉ l) :
    splitOnChar c (l ++ c :: r) = l :: splitOnChar c r := by
  induction l with
  | nil =>
    cases hs : splitOnChar c r with
    | nil => exact absurd hs (splitOnChar_ne_nil c r)
    | cons s ss => simp [splitOnChar, hs]
  | cons a t ih =>
    have hat : c ∉ t := fun hc => h (List.mem_cons_of_mem a hc)
    have hac : (a == c) = false :=
      beq_eq_false_iff_ne.mpr (fun he => h (he ▸ List.mem_cons_self a t))
    cases hs : splitOnChar c (t ++ c :: r) with
    | nil => exact absurd hs (splitOnChar_ne_nil c (t ++ c :: r))
    | cons s ss =>
      have := ih hat
      rw [hs] at this
      cases this
      simp [splitOnChar, hs, hac]

/-- Claim C8, counterexample to the claim as stated: a product whose title
contains a semicolon does not survive the round trip: the written line
u;a;b is split on semicolons into three parts, and the re-read product
keeps only the part before the second semicolon as its title, so the
re-read set of (url, title) pairs differs from the written one. -/
theorem result_list_round_trip_counterexample :
    parsed_products (write_result_list [(['u'], ['a', ';', 'b'])]) =
      [(['u'], some ['a'])] ∧
    (parsed_products (write_result_list [(['u'], ['a', ';', 'b'])])).toFinset ≠
      ([(['u'], ['a', ';', 'b'])].map (fun p => (p.1, some p.2))).toFinset :=
  ⟨rfl, by decide⟩

/-- Claim C8 (amended): for every list of ProductReference pairs whose
urls and titles contain no semicolon and no newline and whose serialized
line carries no leading or trailing whitespace, serializing it as the
result-list file and re-reading that file with the download parser yields
exactly the written (url, title) pairs, in order — in particular the same
set of pairs, independent of the order in which the set was written. -/
theorem result_list_round_trip (S : List ProductReference)
    (h : ∀ p ∈ S, ';' ∉ p.1 ∧ ';' ∉ p.2 ∧ '\n' ∉ p.1 ∧ '\n' ∉ p.2 ∧
      stripL (p.1 ++ ';' :: p.2) = p.1 ++ ';' :: p.2) :
    parsed_products (write_result_list S) = S.map (fun p => (p.1, some p.2)) ∧
    (parsed_products (write_result_list S)).toFinset =
      (S.map (fun p => (p.1, some p.2))).toFinset := by
  have hmain : parsed_products (write_result_list S) = S.map (fun p => (p.1, some p.2)) := by
    induction S with
    | nil => rfl
    | cons p S ih =>
      obtain ⟨h1, h2, h3, h4, h5⟩ := h p (List.mem_cons_self p S)
      have hrest := ih (fun q hq => h q (List.mem_cons_of_mem p hq))
      have hnl : '\n' ∉ p.1 ++ ';' :: p.2 := by
        intro hm
        rcases List.mem_append.mp hm with hm1 | hm2
        · exact h3 hm1
        · rcases List.mem_cons.mp hm2 with he | hm3
          · exact absurd he (by decide)
          · exact h4 hm3
      have hflat : write_result_list (p :: S) =
          (p.1 ++ ';' :: p.2) ++ '\n' :: write_result_list S := by
        simp [write_result_list, List.append_assoc]
      have hsplit : splitOnChar '\n' (write_result_list (p :: S)) =
          (p.1 ++ ';' :: p.2) :: splitOnChar '\n' (write_result_list S) := by
        rw [hflat]
        exact splitOnChar_append hnl
      have hblank : (stripL (p.1 ++ ';' :: p.2)).isEmpty = false := by
        rw [h5]
        cases hp1 : p.1 with
        | nil => rfl
        | cons a t => rfl
      have hsemi : splitOnChar ';' (stripL (p.1 ++ ';' :: p.2)) = [p.1, p.2] := by
        rw [h5, splitOnChar_append h1, splitOnChar_not_mem h2]
      simp only [parsed_products, product_list_of, read_result_lines] at hrest ⊢
      rw [hsplit, List.filter_cons, hblank]
      simp only [Bool.not_false, if_pos]
      rw [List.map_cons, hsemi]
      simp only [List.map_cons]
      rw [hrest]
      rfl
  exact ⟨hmain, by rw [hmain]⟩

/-- Witness for the amended C8: a concrete two-product list with clean
urls and titles round-trips exactly. -/
theorem result_list_round_trip_witness :
    parsed_products (write_result_list [(['u'], ['t']), (['v'], ['w'])]) =
      [(['u'], some ['t']), (['v'], some ['w'])] := by
  have h := result_list_round_trip [(['u'], ['t']), (['v'], ['w'])] (by decide)
  exact h.1

/-! ## Claim C10 -/

/-- The claim C10 reading of the parser, following the claim words
literally: the non-blank lines, in file order, each split on the semicolon
as the line stands, without stripping it first. This definition renders
the claim, not the source; the source parser is product_list_of, which
strips each line before splitting. -/
def product_list_unstripped (file : List Char) : List (List (List Char)) :=
  ((read_result_lines file).filter (fun x => !(stripL x).isEmpty)).map
    (fun x => splitOnChar ';' x)

/-- Claim C10, counterexample to the claim as stated: on a file whose one
line carries a leading space, the parser strips the line before splitting,
so the attempted product is (u, t) and not the claimed ( u, t) obtained by
splitting the raw line. -/
theorem product_list_strip_counterexample :
    (product_list_of (' ' :: 'u' :: ';' :: 't' :: [])).map product_entry ≠
      (product_list_unstripped (' ' :: 'u' :: ';' :: 't' :: [])).map product_entry ∧
    (product_list_of (' ' :: 'u' :: ';' :: 't' :: [])).map product_entry =
      [(['u'], some ['t'])] :=
  ⟨by decide, rfl⟩

theorem download_all_map_fst {α : Type} (attempt : α → Nat → Bool) (max_retry : Nat) :
    ∀ l : List α, (∀ e ∈ l, (download_product (attempt e) max_retry).isFatal = false) →
      (download_all attempt max_retry l).map Prod.fst = l := by
  intro l
  induction l with
  | nil => intro _; rfl
  | cons e rest ih =>
    intro hall
    have he := hall e (List.mem_cons_self e rest)
    have hrest := ih (fun x hx => hall x (List.mem_cons_of_mem e hx))
    cases ho : download_product (attempt e) max_retry with
    | fatal a s =>
      rw [ho] at he
      exact absurd he (by simp [DownloadOutcome.isFatal])
    | success a s => simp [download_all, ho, hrest]
    | skipped => simp [download_all, ho, hrest]

/-- Claim C10 (amended): for every result-list file, the downloader skips
the lines that are empty or contain only whitespace, and the sequence of
products it iterates over equals the non-blank lines in file order, each
first stripped of leading and trailing whitespace and then split on
semicolons into (url, optional title); when no download is fatal, the
download loop attempts exactly that sequence, in order. -/
theorem download_attempt_sequence (attempt : (List Char × Option (List Char)) → Nat → Bool)
    (max_retry : Nat) (file : List Char)
    (hok : ∀ e ∈ parsed_products file,
      (download_product (attempt e) max_retry).isFatal = false) :
    (download_all attempt max_retry (parsed_products file)).map Prod.fst =
      parsed_products file ∧
    parsed_products file =
      ((splitOnChar '\n' file).filter (fun x => !(stripL x).isEmpty)).map
        (fun x => product_entry (splitOnChar ';' (stripL x))) := by
  constructor
  · exact download_all_map_fst attempt max_retry (parsed_products file) hok
  · simp [parsed_products, product_list_of, read_result_lines, List.map_map]

/-- Witness for the amended C10: on a concrete two-line file with a blank
line between the products, the loop attempts exactly the two parsed
products in order. -/
theorem download_attempt_sequence_witness :
    (download_all (fun _ _ => true) 1
        (parsed_products
          ('u' :: ';' :: 't' :: '\n' :: ' ' :: '\n' :: 'v' :: '\n' :: []))).map Prod.fst =
      parsed_products ('u' :: ';' :: 't' :: '\n' :: ' ' :: '\n' :: 'v' :: '\n' :: []) ∧
    parsed_products ('u' :: ';' :: 't' :: '\n' :: ' ' :: '\n' :: 'v' :: '\n' :: []) =
      [(['u'], some ['t']), (['v'], none)] := by
  have h := download_attempt_sequence (fun _ _ => true) 1
    ('u' :: ';' :: 't' :: '\n' :: ' ' :: '\n' :: 'v' :: '\n' :: []) (by decide)
  exact ⟨h.1, by decide⟩

end CLMS
